import Mathlib

/-!
Shallow embedding of the Olist buyer-segmentation dashboard
(src/app_olist_segmentation.py).

Tables are lists of records.  Dates are rationals measured in days, so that
the pandas subtraction followed by .dt.days is floor of the difference;
a missing delivered date (NaT) is Option.none.  Prices, review scores and
thresholds are rationals.  A pandas merge on a key produces, for each left
row, one output row per matching right row (matches taken in right-row
order); a left merge additionally keeps an unmatched left row with a null
fill.  A groupby produces one row per distinct key; the relative order of
group keys is irrelevant to every statement below (pandas sorts keys,
the model takes them in order of List.dedup), while rows inside a group
keep their original order, which the model reproduces with List.filter.
-/

/-- Row of proc_olist_orders_dataset: order_id, customer_id, the delivered
and estimated delivery timestamps in days (delivered may be missing). -/
structure OrderRow where
  order_id : String
  customer_id : String
  delivered : Option ℚ
  estimated : ℚ
deriving DecidableEq, Repr

/-- Row of proc_olist_order_items_dataset. -/
structure ItemRow where
  order_id : String
  product_id : String
  price : ℚ
deriving DecidableEq, Repr

/-- Row of proc_olist_order_reviews_dataset. -/
structure ReviewRow where
  order_id : String
  review_score : ℚ
deriving DecidableEq, Repr

/-- Row of proc_olist_customers_dataset. -/
structure CustomerRow where
  customer_id : String
  customer_unique_id : String
  customer_state : String
deriving DecidableEq, Repr

/-- Row of proc_olist_products_dataset; the English category name is a
nullable column. -/
structure ProductRow where
  product_id : String
  category : Option String
deriving DecidableEq, Repr

/-- The five tables read by load_data (lines 52 to 56 of the source). -/
structure RawData where
  orders : List OrderRow
  items : List ItemRow
  reviews : List ReviewRow
  customers : List CustomerRow
  products : List ProductRow
deriving DecidableEq, Repr

/-- Line 61 of the source: the raw day difference
(delivered minus estimated).dt.days, which floors the rational difference. -/
def delay_days_raw (delivered estimated : ℚ) : ℤ :=
  Int.floor (delivered - estimated)

/-- Line 62 of the source: Series.clip with a lower bound. -/
def clip_lower (x lo : ℤ) : ℤ := max x lo

/-- The delay_days column of an order row (lines 59 to 62): missing
delivered date propagates as missing (NaT stays NaT through clip). -/
def order_delay (o : OrderRow) : Option ℤ :=
  o.delivered.map (fun d => clip_lower (delay_days_raw d o.estimated) 0)

/-- Row of the items-products merge result (line 65). -/
structure OrderItemRow where
  order_id : String
  product_id : String
  price : ℚ
  category : Option String
deriving DecidableEq, Repr

/-- The rows a single item contributes to the left merge of line 65: one
row per matching product row, or a single null-category row when the
product_id matches no product. -/
def item_product_rows (products : List ProductRow) (it : ItemRow) :
    List OrderItemRow :=
  if (products.filter (fun p => p.product_id = it.product_id)).isEmpty then
    [⟨it.order_id, it.product_id, it.price, none⟩]
  else
    (products.filter (fun p => p.product_id = it.product_id)).map
      (fun p => ⟨it.order_id, it.product_id, it.price, p.category⟩)

/-- Line 65 of the source: items.merge(products, on=product_id, how=left).
A LEFT merge: an item whose product_id has no product row is kept with a
null category; otherwise one output row per matching product row. -/
def order_items (items : List ItemRow) (products : List ProductRow) :
    List OrderItemRow :=
  items.flatMap (item_product_rows products)

/-- Row of the per-order summary (lines 66 to 69). -/
structure SummaryRow where
  order_id : String
  price : ℚ
  category : Option String
deriving DecidableEq, Repr

/-- The category aggregation lambda of line 68:
x.iloc[0] if not x.empty else Unknown (the empty branch is unreachable for
a groupby group, but is modelled as written). -/
def firstCategory : List OrderItemRow → Option String
  | [] => some "Unknown"
  | r :: _ => r.category

/-- Lines 66 to 69 of the source: groupby(order_id) aggregating the price
sum and the category of the first row of each group. -/
def order_summary (oi : List OrderItemRow) : List SummaryRow :=
  (oi.map (fun r => r.order_id)).dedup.map (fun k =>
    let g := oi.filter (fun r => r.order_id = k)
    ⟨k, (g.map (fun r => r.price)).sum, firstCategory g⟩)

/-- Row after merging orders with customers (line 72). -/
structure OCRow where
  order_id : String
  customer_unique_id : String
  customer_state : String
  delay : Option ℤ
deriving DecidableEq, Repr

/-- Row after further merging with reviews (line 73). -/
structure OCRRow where
  order_id : String
  customer_unique_id : String
  customer_state : String
  delay : Option ℤ
  review_score : ℚ
deriving DecidableEq, Repr

/-- Row of the fully merged order-level table df (line 74). -/
structure DfRow where
  order_id : String
  customer_unique_id : String
  customer_state : String
  delay : Option ℤ
  review_score : ℚ
  price : ℚ
  category : Option String
deriving DecidableEq, Repr

/-- Line 72 of the source: orders.merge(customers, on=customer_id),
an inner merge. -/
def merge_customers (orders : List OrderRow) (customers : List CustomerRow) :
    List OCRow :=
  orders.flatMap (fun o =>
    (customers.filter (fun c => c.customer_id = o.customer_id)).map
      (fun c => ⟨o.order_id, c.customer_unique_id, c.customer_state,
        order_delay o⟩))

/-- Line 73 of the source: df.merge(reviews, on=order_id), an inner merge
against the RAW review rows (no per-order aggregation happens first). -/
def merge_reviews (df : List OCRow) (reviews : List ReviewRow) :
    List OCRRow :=
  df.flatMap (fun r =>
    (reviews.filter (fun v => v.order_id = r.order_id)).map
      (fun v => ⟨r.order_id, r.customer_unique_id, r.customer_state,
        r.delay, v.review_score⟩))

/-- Line 74 of the source: df.merge(order_summary, on=order_id), an inner
merge. -/
def merge_summary (df : List OCRRow) (summ : List SummaryRow) : List DfRow :=
  df.flatMap (fun r =>
    (summ.filter (fun s => s.order_id = r.order_id)).map
      (fun s => ⟨r.order_id, r.customer_unique_id, r.customer_state,
        r.delay, r.review_score, s.price, s.category⟩))

/-- The order-level table df of lines 59 to 74. -/
def build_df (d : RawData) : List DfRow :=
  merge_summary
    (merge_reviews (merge_customers d.orders d.customers) d.reviews)
    (order_summary (order_items d.items d.products))

/-- Mean of a list of rationals (Series.mean on a non-empty group). -/
def meanQ (l : List ℚ) : ℚ := l.sum / (l.length : ℚ)

/-- Series.mean over a nullable integer column: pandas skips missing
values and yields NaN (modelled none) when all are missing. -/
def meanOptD (l : List (Option ℤ)) : Option ℚ :=
  let v := l.filterMap id
  if v.isEmpty then none
  else some ((v.map (fun z => (z : ℚ))).sum / (v.length : ℚ))

/-- The lambda of line 82: x.value_counts().index[0].  value_counts drops
null values and orders by descending count; the model resolves count ties
by first encountered value, and returns none where the python expression
would raise IndexError (all values null), an error the caller surfaces as
a global load failure (lines 112 to 116). -/
def value_counts_top (l : List (Option String)) : Option String :=
  let v := l.filterMap id
  v.foldl (fun best x =>
    match best with
    | none => some x
    | some b => if v.count b < v.count x then some x else best) none

/-- Row of the per-customer master table cust_master (lines 77 to 89). -/
structure CustRow where
  customer_unique_id : String
  Satisfaction : ℚ
  Monetary : ℚ
  Frequency : ℕ
  Avg_Delay : Option ℚ
  Primary_Category : Option String
deriving DecidableEq, Repr

/-- Lines 77 to 89 of the source: groupby(customer_unique_id) with
Satisfaction = mean review_score, Monetary = sum price,
Frequency = nunique order_id, Avg_Delay = mean delay_days,
Primary_Category = value_counts().index[0] of the category column. -/
def cust_master (df : List DfRow) : List CustRow :=
  (df.map (fun r => r.customer_unique_id)).dedup.map (fun k =>
    let g := df.filter (fun r => r.customer_unique_id = k)
    ⟨k, meanQ (g.map (fun r => r.review_score)),
      (g.map (fun r => r.price)).sum,
      ((g.map (fun r => r.order_id)).dedup).length,
      meanOptD (g.map (fun r => r.delay)),
      value_counts_top (g.map (fun r => r.category))⟩)

/-- The customer master table produced by load_data from the raw tables
(the state-level aggregate of lines 100 to 108 is not modelled: no claim
concerns it). -/
def build_cust_master (d : RawData) : List CustRow :=
  cust_master (build_df d)

/-- Series.quantile with the default linear interpolation, as used on
line 92 of the source. -/
def quantile (l : List ℚ) (q : ℚ) : ℚ :=
  let s := List.insertionSort (fun a b => a ≤ b) l
  if s.length = 0 then 0
  else
    let h : ℚ := q * ((s.length : ℚ) - 1)
    let i : ℕ := (Int.floor h).toNat
    let lo := s.getD i 0
    let hi := s.getD (i + 1) lo
    lo + (h - (Int.floor h : ℚ)) * (hi - lo)

/-- Line 92 of the source: the 0.7 and 0.9 quantiles of the Monetary
column. -/
def m_thresholds (cust : List CustRow) : ℚ × ℚ :=
  (quantile (cust.map (fun r => r.Monetary)) (7 / 10),
   quantile (cust.map (fun r => r.Monetary)) (9 / 10))

/-- Lines 93 to 96 of the source: the RFM grade of a monetary value given
the pair of thresholds (q70, q90). -/
def rfm_grade (t : ℚ × ℚ) (m : ℚ) : String :=
  if m ≥ t.2 then "VIP 고객"
  else if m ≥ t.1 then "충성 고객"
  else "일반 고객"

/-- Numeric rank of an RFM grade, top tier highest; used to state
monotonicity of the grader. -/
def tier_rank (g : String) : ℕ :=
  if g = "VIP 고객" then 2 else if g = "충성 고객" then 1 else 0

/-- Lines 124 to 128 of the source: the four-quadrant segment of a
customer row given the two sidebar thresholds. -/
def classify (m_standard s_standard : ℚ) (row : CustRow) : String :=
  if row.Monetary ≥ m_standard then
    if row.Satisfaction ≥ s_standard then "핵심 우량 고객"
    else "중점 관리(이탈 위험)"
  else
    if row.Satisfaction ≥ s_standard then "성장 잠재 고객"
    else "일반 유입 고객"

/-- Number of customers classified into one of the two low-value segments
(Monetary below the threshold). -/
def low_value_count (rows : List CustRow) (m_standard s_standard : ℚ) : ℕ :=
  rows.countP (fun r =>
    classify m_standard s_standard r = "성장 잠재 고객" ∨
    classify m_standard s_standard r = "일반 유입 고객")

/-- Lines 33 to 37 of the source: the candidate data directories, in
priority order. -/
def search_paths (current_dir : String) : List String :=
  [current_dir,
   current_dir ++ "/DATA_PARQUET",
   "c:\\fcicb6\\data\\OLIST_V.2\\DATA_PARQUET"]

/-- Lines 39 to 45 of the source: the first candidate directory that
contains the marker file proc_olist_orders_dataset.parquet; the filesystem
is abstracted as the predicate has_marker. -/
def find_base_path (has_marker : String → Bool) (current_dir : String) :
    Option String :=
  (search_paths current_dir).find? has_marker

/-- The user-facing diagnostic of line 48. -/
def data_not_found_msg : String :=
  "데이터 파일을 찾을 수 없습니다. 경로와 파일 전송 상태를 확인해주세요."

/-- Lines 30 to 110 of the source: locate the data directory, abort with
the data-not-found diagnostic when no candidate has the marker file
(st.error plus st.stop, modelled as Except.error), otherwise read the five
tables from the located directory and build the customer master table. -/
def load_data (has_marker : String → Bool) (read_dir : String → RawData)
    (current_dir : String) : Except String (List CustRow) :=
  match find_base_path has_marker current_dir with
  | none => Except.error data_not_found_msg
  | some p => Except.ok (build_cust_master (read_dir p))

example :
    order_delay ⟨"o1", "c1", some 3, 5⟩ = some 0 := by
  simp only [order_delay, delay_days_raw, clip_lower, Option.map_some]
  norm_num

example :
    build_cust_master
      ⟨[⟨"o1", "c1", some 3, 5⟩], [⟨"o1", "p1", 10⟩], [⟨"o1", 4⟩],
       [⟨"c1", "u1", "SP"⟩], [⟨"p1", some "toys"⟩]⟩
      = [⟨"u1", 4, 10, 1, some 0, some "toys"⟩] := by
  simp [build_cust_master, cust_master, build_df, merge_summary,
    merge_reviews, merge_customers, order_summary, order_items,
    item_product_rows, order_delay, delay_days_raw, clip_lower, meanQ,
    meanOptD, value_counts_top, firstCategory, List.dedup, List.pwFilter,
    List.filterMap, List.count, List.countP, List.foldl]

/-- Helper: a customer falls in one of the two low-value segments exactly
when Monetary is below the monetary threshold. -/
lemma classify_low_iff (M S : ℚ) (r : CustRow) :
    (classify M S r = "성장 잠재 고객" ∨ classify M S r = "일반 유입 고객")
      ↔ r.Monetary < M := by
  by_cases hm : r.Monetary ≥ M <;> by_cases hs : r.Satisfaction ≥ S <;>
    simp [classify, hm, hs] <;> first
      | exact not_lt.mpr hm
      | exact lt_of_not_ge hm

/-- C1: classify is a pure, total, deterministic function of
(Monetary, Satisfaction, monetary threshold, satisfaction threshold):
each of the four labels is returned exactly on the corresponding cell of
the 2x2 decision table (no overlap, no gap), and two rows agreeing on
Monetary and Satisfaction always receive the same label. -/
theorem segmenter_two_by_two (M S : ℚ) (row : CustRow) :
    (classify M S row = "핵심 우량 고객"
        ↔ row.Monetary ≥ M ∧ row.Satisfaction ≥ S)
  ∧ (classify M S row = "중점 관리(이탈 위험)"
        ↔ row.Monetary ≥ M ∧ ¬ row.Satisfaction ≥ S)
  ∧ (classify M S row = "성장 잠재 고객"
        ↔ ¬ row.Monetary ≥ M ∧ row.Satisfaction ≥ S)
  ∧ (classify M S row = "일반 유입 고객"
        ↔ ¬ row.Monetary ≥ M ∧ ¬ row.Satisfaction ≥ S)
  ∧ (∀ row2 : CustRow, row2.Monetary = row.Monetary →
      row2.Satisfaction = row.Satisfaction →
      classify M S row2 = classify M S row) := by
  refine ⟨?_, ?_, ?_, ?_, fun row2 h1 h2 => by simp [classify, h1, h2]⟩ <;>
    (by_cases hm : row.Monetary ≥ M <;> by_cases hs : row.Satisfaction ≥ S <;>
      simp [classify, hm, hs])

/-- Witness for C1, the scenario of the spec: Monetary 500 and
Satisfaction 4.2 against thresholds (300, 3.5) land in the
high-value--high-satisfaction quadrant. -/
theorem segmenter_two_by_two_witness :
    classify 300 (7 / 2) ⟨"u1", 21 / 5, 500, 1, none, none⟩ = "핵심 우량 고객" :=
  (segmenter_two_by_two 300 (7 / 2) ⟨"u1", 21 / 5, 500, 1, none, none⟩).1.mpr
    ⟨by norm_num, by norm_num⟩

/-- C5: for every order with a delivered date, the delay column equals
max(0, floor of the day difference between delivered and estimated), is
never negative, and is zero when the order was delivered before the
estimated date. -/
theorem delay_days_clamped (o : OrderRow) (d : ℚ) (h : o.delivered = some d) :
    order_delay o = some (max 0 (delay_days_raw d o.estimated))
  ∧ (∀ z : ℤ, order_delay o = some z → 0 ≤ z)
  ∧ (d < o.estimated → order_delay o = some 0) := by
  have hbase : order_delay o
      = some (clip_lower (delay_days_raw d o.estimated) 0) := by
    simp [order_delay, h]
  refine ⟨?_, ?_, ?_⟩
  · rw [hbase]
    simp [clip_lower, max_comm]
  · intro z hz
    rw [hbase] at hz
    have hz2 : clip_lower (delay_days_raw d o.estimated) 0 = z :=
      Option.some.inj hz
    rw [← hz2]
    exact le_max_right _ _
  · intro hd
    rw [hbase]
    have hfl : delay_days_raw d o.estimated ≤ 0 := by
      have : d - o.estimated ≤ 0 := by linarith
      simpa [delay_days_raw] using Int.floor_nonpos this
    simp [clip_lower, max_eq_right hfl]

/-- Witness for C5: delivered on day 3 against an estimate of day 5 gives
a delay of zero, not a negative number. -/
theorem delay_days_clamped_witness :
    order_delay ⟨"o1", "c1", some 3, 5⟩ = some 0 :=
  (delay_days_clamped ⟨"o1", "c1", some 3, 5⟩ 3 rfl).2.2 (by norm_num)

/-- Helper: the three-way grade of rfm_grade is monotone in the monetary
value, for any pair of thresholds. -/
lemma tier_rank_rfm_grade_mono (t : ℚ × ℚ) {m1 m2 : ℚ} (h : m1 ≤ m2) :
    tier_rank (rfm_grade t m1) ≤ tier_rank (rfm_grade t m2) := by
  by_cases h2 : m1 ≥ t.2
  · have h2b : m2 ≥ t.2 := le_trans h2 h
    simp [rfm_grade, tier_rank, h2, h2b]
  · by_cases h1 : m1 ≥ t.1
    · have h1b : m2 ≥ t.1 := le_trans h1 h
      by_cases h2b : m2 ≥ t.2 <;> simp [rfm_grade, tier_rank, h2, h1, h1b, h2b]
    · simp [rfm_grade, tier_rank, h2, h1]

/-- C6: the grader is monotone in Monetary: with the thresholds taken as
the 0.7 and 0.9 quantiles of the Monetary population, a customer with
strictly larger Monetary never receives a lower tier. -/
theorem grader_monotone_in_monetary (cust : List CustRow) (a b : CustRow)
    (h : b.Monetary < a.Monetary) :
    tier_rank (rfm_grade (m_thresholds cust) b.Monetary)
      ≤ tier_rank (rfm_grade (m_thresholds cust) a.Monetary) :=
  tier_rank_rfm_grade_mono (m_thresholds cust) h.le

/-- Witness for C6 on a two-customer population. -/
theorem grader_monotone_in_monetary_witness :
    tier_rank (rfm_grade
      (m_thresholds [⟨"a", 0, 5, 1, none, none⟩, ⟨"b", 0, 3, 1, none, none⟩])
      ((⟨"b", 0, 3, 1, none, none⟩ : CustRow).Monetary))
    ≤ tier_rank (rfm_grade
      (m_thresholds [⟨"a", 0, 5, 1, none, none⟩, ⟨"b", 0, 3, 1, none, none⟩])
      ((⟨"a", 0, 5, 1, none, none⟩ : CustRow).Monetary)) :=
  grader_monotone_in_monetary
    [⟨"a", 0, 5, 1, none, none⟩, ⟨"b", 0, 3, 1, none, none⟩]
    ⟨"a", 0, 5, 1, none, none⟩ ⟨"b", 0, 3, 1, none, none⟩ (by norm_num)

/-- C7: over any fixed aggregate table and satisfaction threshold, raising
the monetary threshold never decreases the number of customers classified
into a low-value segment. -/
theorem low_value_count_monotone (rows : List CustRow) (S m1 m2 : ℚ)
    (h : m1 ≤ m2) :
    low_value_count rows m1 S ≤ low_value_count rows m2 S := by
  unfold low_value_count
  refine List.countP_mono_left (fun r _ hr => ?_)
  have hlow : r.Monetary < m1 := (classify_low_iff m1 S r).mp (by simpa using hr)
  have : r.Monetary < m2 := lt_of_lt_of_le hlow h
  simpa using (classify_low_iff m2 S r).mpr this

/-- Witness for C7. -/
theorem low_value_count_monotone_witness :
    low_value_count [⟨"u1", 4, 5, 1, none, none⟩] 1 (7 / 2)
      ≤ low_value_count [⟨"u1", 4, 5, 1, none, none⟩] 10 (7 / 2) :=
  low_value_count_monotone [⟨"u1", 4, 5, 1, none, none⟩] (7 / 2) 1 10
    (by norm_num)

/-- C9: the loader tries the candidate directories in the fixed priority
order (the app directory, then its DATA_PARQUET subdirectory, then the
fixed fallback path), reads the data from the first candidate containing
the marker file, and aborts with the data-not-found diagnostic when no
candidate contains the marker file. -/
theorem loader_search_order_and_abort (has_marker : String → Bool)
    (read_dir : String → RawData) (dir : String) :
    (has_marker dir = true → find_base_path has_marker dir = some dir)
  ∧ (has_marker dir = false →
      has_marker (dir ++ "/DATA_PARQUET") = true →
      find_base_path has_marker dir = some (dir ++ "/DATA_PARQUET"))
  ∧ (has_marker dir = false →
      has_marker (dir ++ "/DATA_PARQUET") = false →
      has_marker "c:\\fcicb6\\data\\OLIST_V.2\\DATA_PARQUET" = true →
      find_base_path has_marker dir
        = some "c:\\fcicb6\\data\\OLIST_V.2\\DATA_PARQUET")
  ∧ ((∀ p ∈ search_paths dir, has_marker p = false) →
      load_data has_marker read_dir dir = Except.error data_not_found_msg)
  ∧ (∀ p, find_base_path has_marker dir = some p →
      has_marker p = true ∧ p ∈ search_paths dir ∧
      load_data has_marker read_dir dir
        = Except.ok (build_cust_master (read_dir p))) := by
  refine ⟨?_, ?_, ?_, ?_, ?_⟩
  · intro h1
    simp [find_base_path, search_paths, List.find?, h1]
  · intro h1 h2
    simp [find_base_path, search_paths, List.find?, h1, h2]
  · intro h1 h2 h3
    simp [find_base_path, search_paths, List.find?, h1, h2, h3]
  · intro hall
    have hnone : find_base_path has_marker dir = none := by
      apply List.find?_eq_none.mpr
      intro p hp
      simp [hall p hp]
    simp [load_data, hnone]
  · intro p hp
    refine ⟨List.find?_some hp, List.mem_of_find?_eq_some hp, ?_⟩
    simp [load_data, hp]

/-- Witness for C9: a filesystem with no marker file anywhere makes the
loader abort with the diagnostic. -/
theorem loader_search_order_and_abort_witness :
    load_data (fun _ => false) (fun _ => ⟨[], [], [], [], []⟩) "APPDIR"
      = Except.error data_not_found_msg :=
  (loader_search_order_and_abort (fun _ => false)
    (fun _ => ⟨[], [], [], [], []⟩) "APPDIR").2.2.2.1 (fun _ _ => rfl)

/-- Helper: a groupby group is never empty: every key occurring in the
dedup of the key column has at least one matching row. -/
lemma filter_key_ne_nil {α β : Type} [DecidableEq β] (l : List α) (f : α → β)
    (k : β) (hk : k ∈ (l.map f).dedup) :
    l.filter (fun r => f r = k) ≠ [] := by
  rw [List.mem_dedup, List.mem_map] at hk
  obtain ⟨r, hr, hrk⟩ := hk
  intro hnil
  have hmem : r ∈ l.filter (fun r => f r = k) :=
    List.mem_filter.mpr ⟨hr, by simp [hrk]⟩
  rw [hnil] at hmem
  simp at hmem

/-- Helper: each row a single item contributes to the left merge keeps the
order_id and the price of that item. -/
lemma item_product_rows_fields (products : List ProductRow) (it : ItemRow) :
    ∀ r ∈ item_product_rows products it,
      r.order_id = it.order_id ∧ r.price = it.price := by
  intro r hr
  unfold item_product_rows at hr
  split at hr
  · rw [List.mem_singleton] at hr
    subst hr
    exact ⟨rfl, rfl⟩
  · rw [List.mem_map] at hr
    obtain ⟨p, _, hr⟩ := hr
    subst hr
    exact ⟨rfl, rfl⟩

/-- Helper: the rows a single item contributes are never empty (this is
what makes the merge of line 65 a left join). -/
lemma item_product_rows_ne_nil (products : List ProductRow) (it : ItemRow) :
    item_product_rows products it ≠ [] := by
  unfold item_product_rows
  split
  · simp
  · next h =>
    simp only [ne_eq, List.map_eq_nil_iff]
    rw [List.isEmpty_iff] at h
    exact h

/-- Helper: every row of the items-products merge carries the price of one
of the underlying item rows. -/
lemma order_items_price (items : List ItemRow) (products : List ProductRow) :
    ∀ r ∈ order_items items products, ∃ it ∈ items, r.price = it.price := by
  intro r hr
  unfold order_items at hr
  rw [List.mem_flatMap] at hr
  obtain ⟨it, hit, hr⟩ := hr
  exact ⟨it, hit, (item_product_rows_fields products it r hr).2⟩

/-- Helper: every order summary row has positive price sum when every item
price is positive. -/
lemma order_summary_price_pos (oi : List OrderItemRow)
    (hpos : ∀ r ∈ oi, 0 < r.price) :
    ∀ s ∈ order_summary oi, 0 < s.price := by
  intro s hs
  unfold order_summary at hs
  rw [List.mem_map] at hs
  obtain ⟨k, hk, hsk⟩ := hs
  have hne : oi.filter (fun r => r.order_id = k) ≠ [] :=
    filter_key_ne_nil oi (fun r => r.order_id) k hk
  subst hsk
  show 0 < ((oi.filter (fun r => r.order_id = k)).map (fun r => r.price)).sum
  apply List.sum_pos
  · intro x hx
    rw [List.mem_map] at hx
    obtain ⟨r, hr, hrx⟩ := hx
    subst hrx
    exact hpos r (List.mem_of_mem_filter hr)
  · simpa using hne

/-- Helper: every row of the final merge takes its order_id, price and
category from a matching order summary row. -/
lemma merge_summary_fields (df : List OCRRow) (summ : List SummaryRow) :
    ∀ r ∈ merge_summary df summ, ∃ s ∈ summ,
      r.order_id = s.order_id ∧ r.price = s.price ∧ r.category = s.category := by
  intro r hr
  unfold merge_summary at hr
  rw [List.mem_flatMap] at hr
  obtain ⟨x, _, hr⟩ := hr
  rw [List.mem_map] at hr
  obtain ⟨s, hsf, hr⟩ := hr
  subst hr
  have h1 := List.mem_filter.mp hsf
  have h2 : s.order_id = x.order_id := by simpa using h1.2
  exact ⟨s, h1.1, h2.symm, rfl, rfl⟩

/-- C8: whenever every item price in the input is positive, every row of
the customer aggregate has positive Monetary and Frequency at least one:
the inner joins guarantee at least one order row with at least one priced
item behind every aggregated customer. -/
theorem aggregate_monetary_frequency_pos (d : RawData)
    (hp : ∀ it ∈ d.items, 0 < it.price) :
    ∀ row ∈ build_cust_master d, 0 < row.Monetary ∧ 1 ≤ row.Frequency := by
  intro row hrow
  unfold build_cust_master cust_master at hrow
  rw [List.mem_map] at hrow
  obtain ⟨k, hk, hrk⟩ := hrow
  have hne : (build_df d).filter (fun r => r.customer_unique_id = k) ≠ [] :=
    filter_key_ne_nil (build_df d) (fun r => r.customer_unique_id) k hk
  subst hrk
  constructor
  · show 0 < (((build_df d).filter
      (fun r => r.customer_unique_id = k)).map (fun r => r.price)).sum
    apply List.sum_pos
    · intro x hx
      rw [List.mem_map] at hx
      obtain ⟨r, hr, hrx⟩ := hx
      subst hrx
      have hrdf : r ∈ build_df d := List.mem_of_mem_filter hr
      unfold build_df at hrdf
      obtain ⟨s, hs, _, hps, _⟩ := merge_summary_fields _ _ r hrdf
      rw [hps]
      refine order_summary_price_pos _ ?_ s hs
      intro r2 hr2
      obtain ⟨it, hit, hit2⟩ := order_items_price d.items d.products r2 hr2
      rw [hit2]
      exact hp it hit
    · simpa using hne
  · show 1 ≤ ((((build_df d).filter
      (fun r => r.customer_unique_id = k)).map (fun r => r.order_id)).dedup).length
    rw [Nat.succ_le_iff, List.length_pos]
    intro hdn
    rw [List.dedup_eq_nil, List.map_eq_nil_iff] at hdn
    exact hne hdn

/-- A one-customer dataset used by several witnesses. -/
def sampleData : RawData :=
  ⟨[⟨"o1", "c1", none, 5⟩], [⟨"o1", "p1", 10⟩], [⟨"o1", 4⟩],
   [⟨"c1", "u1", "SP"⟩], [⟨"p1", some "toys"⟩]⟩

/-- Helper: the aggregate of the one-customer sample dataset. -/
lemma sampleData_master :
    build_cust_master sampleData = [⟨"u1", 4, 10, 1, none, some "toys"⟩] := by
  simp [sampleData, build_cust_master, cust_master, build_df, merge_summary,
    merge_reviews, merge_customers, order_summary, order_items,
    item_product_rows, order_delay, meanQ, meanOptD, value_counts_top,
    firstCategory, List.dedup, List.pwFilter, List.filterMap, List.count,
    List.countP, List.foldl]

/-- Witness for C8 on the sample dataset. -/
theorem aggregate_monetary_frequency_pos_witness :
    0 < (⟨"u1", 4, 10, 1, none, some "toys"⟩ : CustRow).Monetary ∧
      1 ≤ (⟨"u1", 4, 10, 1, none, some "toys"⟩ : CustRow).Frequency :=
  aggregate_monetary_frequency_pos sampleData
    (by
      intro it hit
      simp only [sampleData, List.mem_singleton] at hit
      subst hit
      norm_num)
    ⟨"u1", 4, 10, 1, none, some "toys"⟩
    (by rw [sampleData_master]; exact List.mem_singleton.mpr rfl)

/-- Helper: length of the rows of a key-equijoin flatMap that fall on one
key: each left row with the key is replicated once per matching right row.
Covers the merges of lines 73 and 74. -/
lemma filter_length_flatMap_pair {α β γ : Type} (l : List α) (rs : List β)
    (keyA : α → String) (keyB : β → String) (mk : α → β → γ)
    (keyC : γ → String) (hkey : ∀ a b, keyC (mk a b) = keyA a)
    (oid : String) :
    ((l.flatMap (fun a => (rs.filter (fun b => keyB b = keyA a)).map
        (mk a))).filter (fun c => keyC c = oid)).length
      = (l.filter (fun a => keyA a = oid)).length
        * (rs.filter (fun b => keyB b = oid)).length := by
  induction l with
  | nil => simp
  | cons x rest ih =>
    rw [List.flatMap_cons, List.filter_append, List.length_append, ih]
    by_cases hx : keyA x = oid
    · rw [List.filter_cons_of_pos (by simp [hx])]
      have h1 : ((rs.filter (fun b => keyB b = keyA x)).map (mk x)).filter
          (fun c => keyC c = oid)
          = (rs.filter (fun b => keyB b = keyA x)).map (mk x) := by
        apply List.filter_eq_self.mpr
        intro c hc
        rw [List.mem_map] at hc
        obtain ⟨b, _, hb⟩ := hc
        subst hb
        simp [hkey, hx]
      have h2 : rs.filter (fun b => keyB b = keyA x)
          = rs.filter (fun b => keyB b = oid) := by
        simp only [hx]
      rw [h1, List.length_map, h2, List.length_cons, Nat.succ_mul]
      omega
    · rw [List.filter_cons_of_neg (by simp [hx])]
      have h1 : ((rs.filter (fun b => keyB b = keyA x)).map (mk x)).filter
          (fun c => keyC c = oid) = [] := by
        apply List.filter_eq_nil_iff.mpr
        intro c hc
        rw [List.mem_map] at hc
        obtain ⟨b, _, hb⟩ := hc
        subst hb
        simp [hkey, hx]
      rw [h1]
      simp

/-- Helper: specialization of the previous lemma to the reviews merge. -/
lemma merge_reviews_count (df : List OCRow) (reviews : List ReviewRow)
    (oid : String) :
    ((merge_reviews df reviews).filter (fun r => r.order_id = oid)).length
      = (df.filter (fun r => r.order_id = oid)).length
        * (reviews.filter (fun v => v.order_id = oid)).length :=
  filter_length_flatMap_pair df reviews (fun r => r.order_id)
    (fun v => v.order_id)
    (fun r v => (⟨r.order_id, r.customer_unique_id, r.customer_state,
      r.delay, v.review_score⟩ : OCRRow))
    (fun r => r.order_id) (fun _ _ => rfl) oid

/-- Helper: specialization of the pair-count lemma to the summary merge. -/
lemma merge_summary_count (df : List OCRRow) (summ : List SummaryRow)
    (oid : String) :
    ((merge_summary df summ).filter (fun r => r.order_id = oid)).length
      = (df.filter (fun r => r.order_id = oid)).length
        * (summ.filter (fun s => s.order_id = oid)).length :=
  filter_length_flatMap_pair df summ (fun r => r.order_id)
    (fun s => s.order_id)
    (fun r s => (⟨r.order_id, r.customer_unique_id, r.customer_state,
      r.delay, r.review_score, s.price, s.category⟩ : DfRow))
    (fun r => r.order_id) (fun _ _ => rfl) oid

/-- Helper: rows of the customers merge belonging to one order. -/
lemma merge_customers_count (orders : List OrderRow)
    (customers : List CustomerRow) (oid : String) :
    ((merge_customers orders customers).filter
        (fun r => r.order_id = oid)).length
      = ((orders.filter (fun o => o.order_id = oid)).map
          (fun o => (customers.filter
            (fun c => c.customer_id = o.customer_id)).length)).sum := by
  induction orders with
  | nil => simp [merge_customers]
  | cons x rest ih =>
    unfold merge_customers at ih ⊢
    rw [List.flatMap_cons, List.filter_append, List.length_append, ih]
    by_cases hx : x.order_id = oid
    · rw [List.filter_cons_of_pos (by simp [hx]), List.map_cons,
        List.sum_cons]
      have h1 : ((customers.filter
            (fun c => c.customer_id = x.customer_id)).map
          (fun c => (⟨x.order_id, c.customer_unique_id, c.customer_state,
            order_delay x⟩ : OCRow))).filter (fun r => r.order_id = oid)
          = (customers.filter (fun c => c.customer_id = x.customer_id)).map
            (fun c => (⟨x.order_id, c.customer_unique_id, c.customer_state,
              order_delay x⟩ : OCRow)) := by
        apply List.filter_eq_self.mpr
        intro c hc
        rw [List.mem_map] at hc
        obtain ⟨b, _, hb⟩ := hc
        subst hb
        simp [hx]
      rw [h1, List.length_map]
    · rw [List.filter_cons_of_neg (by simp [hx])]
      have h1 : ((customers.filter
            (fun c => c.customer_id = x.customer_id)).map
          (fun c => (⟨x.order_id, c.customer_unique_id, c.customer_state,
            order_delay x⟩ : OCRow))).filter (fun r => r.order_id = oid)
          = [] := by
        apply List.filter_eq_nil_iff.mpr
        intro c hc
        rw [List.mem_map] at hc
        obtain ⟨b, _, hb⟩ := hc
        subst hb
        simp [hx]
      rw [h1]
      simp

/-- Helper: membership characterization of the customers merge. -/
lemma mem_merge_customers (orders : List OrderRow)
    (customers : List CustomerRow) (x : OCRow) :
    x ∈ merge_customers orders customers
      ↔ ∃ o ∈ orders, ∃ c ∈ customers, c.customer_id = o.customer_id ∧
          x = ⟨o.order_id, c.customer_unique_id, c.customer_state,
            order_delay o⟩ := by
  unfold merge_customers
  rw [List.mem_flatMap]
  constructor
  · rintro ⟨o, ho, hx⟩
    rw [List.mem_map] at hx
    obtain ⟨c, hcf, hx⟩ := hx
    have h := List.mem_filter.mp hcf
    exact ⟨o, ho, c, h.1, by simpa using h.2, hx.symm⟩
  · rintro ⟨o, ho, c, hc, hcid, hx⟩
    refine ⟨o, ho, ?_⟩
    rw [List.mem_map]
    exact ⟨c, List.mem_filter.mpr ⟨hc, by simp [hcid]⟩, hx.symm⟩

/-- Helper: membership characterization of the reviews merge. -/
lemma mem_merge_reviews (df : List OCRow) (reviews : List ReviewRow)
    (x : OCRRow) :
    x ∈ merge_reviews df reviews
      ↔ ∃ r ∈ df, ∃ v ∈ reviews, v.order_id = r.order_id ∧
          x = ⟨r.order_id, r.customer_unique_id, r.customer_state,
            r.delay, v.review_score⟩ := by
  unfold merge_reviews
  rw [List.mem_flatMap]
  constructor
  · rintro ⟨r, hr, hx⟩
    rw [List.mem_map] at hx
    obtain ⟨v, hvf, hx⟩ := hx
    have h := List.mem_filter.mp hvf
    exact ⟨r, hr, v, h.1, by simpa using h.2, hx.symm⟩
  · rintro ⟨r, hr, v, hv, hvid, hx⟩
    refine ⟨r, hr, ?_⟩
    rw [List.mem_map]
    exact ⟨v, List.mem_filter.mpr ⟨hv, by simp [hvid]⟩, hx.symm⟩

/-- Helper: membership characterization of the summary merge. -/
lemma mem_merge_summary (df : List OCRRow) (summ : List SummaryRow)
    (x : DfRow) :
    x ∈ merge_summary df summ
      ↔ ∃ r ∈ df, ∃ s ∈ summ, s.order_id = r.order_id ∧
          x = ⟨r.order_id, r.customer_unique_id, r.customer_state,
            r.delay, r.review_score, s.price, s.category⟩ := by
  unfold merge_summary
  rw [List.mem_flatMap]
  constructor
  · rintro ⟨r, hr, hx⟩
    rw [List.mem_map] at hx
    obtain ⟨s, hsf, hx⟩ := hx
    have h := List.mem_filter.mp hsf
    exact ⟨r, hr, s, h.1, by simpa using h.2, hx.symm⟩
  · rintro ⟨r, hr, s, hsm, hsid, hx⟩
    refine ⟨r, hr, ?_⟩
    rw [List.mem_map]
    exact ⟨s, List.mem_filter.mpr ⟨hsm, by simp [hsid]⟩, hx.symm⟩

/-- Helper: the dedup of a non-empty constant list is the singleton. -/
lemma dedup_const {α : Type} [DecidableEq α] (a : α) :
    ∀ l : List α, l ≠ [] → (∀ x ∈ l, x = a) → l.dedup = [a] := by
  intro l
  induction l with
  | nil => intro h _; exact absurd rfl h
  | cons x xs ih =>
    intro _ hall
    have hxa : x = a := hall x (List.mem_cons_self x xs)
    subst hxa
    by_cases hxs : xs = []
    · subst hxs
      simp
    · have hmem : x ∈ xs := by
        obtain ⟨y, ys, rfl⟩ := List.exists_cons_of_ne_nil hxs
        have hy : y = x := hall y (by simp)
        simp [hy]
      rw [List.dedup_cons_of_mem hmem]
      exact ih hxs (fun z hz => hall z (List.mem_cons_of_mem _ hz))

/-- Modelled from the spec, section 3 (Review: aggregated to mean per
order when duplicates exist): the reviews table collapsed to one mean
review_score row per order, which is what the claim says is joined. -/
def reviews_mean_per_order (reviews : List ReviewRow) : List ReviewRow :=
  (reviews.map (fun v => v.order_id)).dedup.map (fun k =>
    ⟨k, meanQ ((reviews.filter (fun v => v.order_id = k)).map
      (fun v => v.review_score))⟩)

/-- Modelled from the spec: the pipeline as claim C2 describes it, with
the per-order review mean joined instead of the raw review rows. -/
def build_cust_master_mean_reviews (d : RawData) : List CustRow :=
  cust_master (merge_summary
    (merge_reviews (merge_customers d.orders d.customers)
      (reviews_mean_per_order d.reviews))
    (order_summary (order_items d.items d.products)))

/-- A dataset with one order of price 10 and two duplicate review rows. -/
def dupReviewData : RawData :=
  ⟨[⟨"o1", "c1", none, 5⟩], [⟨"o1", "p1", 10⟩], [⟨"o1", 4⟩, ⟨"o1", 2⟩],
   [⟨"c1", "u1", "SP"⟩], [⟨"p1", some "toys"⟩]⟩

/-- Counterexample to C2: the code does NOT aggregate reviews to one mean
per order before joining.  One order with price sum 10 and two duplicate
review rows produces two order-level rows and an aggregate Monetary of 20;
the pipeline the claim describes (join against the per-order review mean)
would produce Monetary 10. -/
theorem reviews_not_preaveraged_cex :
    (build_df dupReviewData).length = 2
  ∧ (build_cust_master dupReviewData).map (fun r => r.Monetary) = [20]
  ∧ (build_cust_master_mean_reviews dupReviewData).map
      (fun r => r.Monetary) = [10] := by
  refine ⟨?_, ?_, ?_⟩ <;>
    (simp [dupReviewData, build_cust_master, build_cust_master_mean_reviews,
      reviews_mean_per_order, cust_master, build_df, merge_summary,
      merge_reviews, merge_customers, order_summary, order_items,
      item_product_rows, order_delay, meanQ, meanOptD, value_counts_top,
      firstCategory, List.dedup, List.pwFilter, List.filterMap, List.count,
      List.countP, List.foldl]
     try norm_num)

/-- C2 amended: the order-level table is joined with the RAW review rows,
with no per-order aggregation: for every order, each order-level row is
replicated once per review row of that order, so duplicate reviews
multiply the order contribution in the customer aggregate. -/
theorem reviews_joined_raw_multiplies (df : List OCRow)
    (reviews : List ReviewRow) (oid : String) :
    ((merge_reviews df reviews).filter (fun r => r.order_id = oid)).length
      = (df.filter (fun r => r.order_id = oid)).length
        * (reviews.filter (fun v => v.order_id = oid)).length :=
  merge_reviews_count df reviews oid

/-- C10: if an order occurs once in the orders table, its customer appears
once in the customers table, the order has an order-summary row s, and the
reviews table holds k rows for the order, then the merged table has
exactly k rows for the order, each carrying the price, category, delay
and customer of the order; and for a customer whose merged rows all
belong to this order, Frequency is 1 (distinct order count) while
Monetary is k times the price sum of the order. -/
theorem review_duplication_semantics (d : RawData) (oid : String)
    (o : OrderRow) (c : CustomerRow) (s : SummaryRow) (k : ℕ)
    (ho : d.orders.filter (fun r => r.order_id = oid) = [o])
    (hc : d.customers.filter (fun r => r.customer_id = o.customer_id) = [c])
    (hs : (order_summary (order_items d.items d.products)).filter
        (fun r => r.order_id = oid) = [s])
    (hk : (d.reviews.filter (fun v => v.order_id = oid)).length = k) :
    ((build_df d).filter (fun r => r.order_id = oid)).length = k
  ∧ (∀ r ∈ build_df d, r.order_id = oid →
      r.price = s.price ∧ r.category = s.category ∧
      r.delay = order_delay o ∧
      r.customer_unique_id = c.customer_unique_id)
  ∧ (∀ row ∈ build_cust_master d,
      (∀ r ∈ build_df d,
          r.customer_unique_id = row.customer_unique_id →
          r.order_id = oid) →
      row.Frequency = 1 ∧ row.Monetary = (k : ℚ) * s.price) := by
  have hA : ((build_df d).filter (fun r => r.order_id = oid)).length = k := by
    unfold build_df
    rw [merge_summary_count, merge_reviews_count, merge_customers_count,
      ho, hs]
    simp [hc, hk]
  have hB : ∀ r ∈ build_df d, r.order_id = oid →
      r.price = s.price ∧ r.category = s.category ∧
      r.delay = order_delay o ∧
      r.customer_unique_id = c.customer_unique_id := by
    intro r hr hroid
    unfold build_df at hr
    rw [mem_merge_summary] at hr
    obtain ⟨r2, hr2, s2, hs2, hs2id, hreq⟩ := hr
    rw [mem_merge_reviews] at hr2
    obtain ⟨r1, hr1, v, _, _, hr2eq⟩ := hr2
    rw [mem_merge_customers] at hr1
    obtain ⟨o2, ho2, c2, hc2, hcid2, hr1eq⟩ := hr1
    subst hreq
    subst hr2eq
    subst hr1eq
    simp only at hroid ⊢
    have ho2id : o2.order_id = oid := hroid
    have ho2mem : o2 ∈ d.orders.filter (fun r => r.order_id = oid) :=
      List.mem_filter.mpr ⟨ho2, by simp [ho2id]⟩
    rw [ho] at ho2mem
    rw [List.mem_singleton] at ho2mem
    subst ho2mem
    have hc2mem : c2 ∈ d.customers.filter
        (fun r => r.customer_id = o2.customer_id) :=
      List.mem_filter.mpr ⟨hc2, by simp [hcid2]⟩
    rw [hc] at hc2mem
    rw [List.mem_singleton] at hc2mem
    subst hc2mem
    have hs2mem : s2 ∈ (order_summary (order_items d.items d.products)).filter
        (fun r => r.order_id = oid) :=
      List.mem_filter.mpr ⟨hs2, by simp [hs2id, ho2id]⟩
    rw [hs] at hs2mem
    rw [List.mem_singleton] at hs2mem
    subst hs2mem
    exact ⟨rfl, rfl, rfl, rfl⟩
  refine ⟨hA, hB, ?_⟩
  intro row hrow hall
  unfold build_cust_master cust_master at hrow
  rw [List.mem_map] at hrow
  obtain ⟨u, hu, hru⟩ := hrow
  have hne : (build_df d).filter (fun r => r.customer_unique_id = u) ≠ [] :=
    filter_key_ne_nil (build_df d) (fun r => r.customer_unique_id) u hu
  subst hru
  simp only at hall
  have hall2 : ∀ r ∈ build_df d, r.customer_unique_id = u →
      r.order_id = oid := hall
  have hfeq : (build_df d).filter (fun r => r.customer_unique_id = u)
      = (build_df d).filter (fun r => r.order_id = oid) := by
    obtain ⟨r0, hr0⟩ := List.exists_mem_of_ne_nil _ hne
    have hr0f := List.mem_filter.mp hr0
    have hr0u : r0.customer_unique_id = u := by simpa using hr0f.2
    have hr0oid : r0.order_id = oid := hall2 r0 hr0f.1 hr0u
    have huc : u = c.customer_unique_id := by
      rw [← hr0u]
      exact ((hB r0 hr0f.1 hr0oid).2.2.2).symm ▸ rfl
    apply List.filter_congr
    intro r hr
    apply decide_eq_decide.mpr
    constructor
    · intro hru2
      exact hall2 r hr hru2
    · intro hroid
      rw [(hB r hr hroid).2.2.2, ← huc]
  constructor
  · show (((((build_df d).filter
        (fun r => r.customer_unique_id = u)).map
          (fun r => r.order_id)).dedup)).length = 1
    have hconst : ∀ x ∈ ((build_df d).filter
        (fun r => r.customer_unique_id = u)).map (fun r => r.order_id),
        x = oid := by
      intro x hx
      rw [List.mem_map] at hx
      obtain ⟨r, hr, hrx⟩ := hx
      subst hrx
      rw [hfeq] at hr
      have := List.mem_filter.mp hr
      simpa using this.2
    have hmne : ((build_df d).filter
        (fun r => r.customer_unique_id = u)).map (fun r => r.order_id)
        ≠ [] := by
      simpa using hne
    rw [dedup_const oid _ hmne hconst]
    rfl
  · show ((((build_df d).filter
        (fun r => r.customer_unique_id = u)).map
          (fun r => r.price))).sum = (k : ℚ) * s.price
    have hconst : ∀ x ∈ ((build_df d).filter
        (fun r => r.customer_unique_id = u)).map (fun r => r.price),
        x = s.price := by
      intro x hx
      rw [List.mem_map] at hx
      obtain ⟨r, hr, hrx⟩ := hx
      subst hrx
      rw [hfeq] at hr
      have h2 := List.mem_filter.mp hr
      exact (hB r h2.1 (by simpa using h2.2)).1
    rw [List.sum_eq_card_nsmul _ _ hconst]
    rw [List.length_map, hfeq, hA]
    simp [nsmul_eq_mul]

/-- Witness for C10 on the duplicate-review dataset: two review rows for
the single order give exactly two merged rows for it. -/
theorem review_duplication_semantics_witness :
    ((build_df dupReviewData).filter
      (fun r => r.order_id = "o1")).length = 2 :=
  (review_duplication_semantics dupReviewData "o1" ⟨"o1", "c1", none, 5⟩
    ⟨"c1", "u1", "SP"⟩ ⟨"o1", 10, some "toys"⟩ 2
    (by simp [dupReviewData])
    (by simp [dupReviewData])
    (by simp [dupReviewData, order_summary, order_items, item_product_rows,
      firstCategory, List.dedup, List.pwFilter])
    (by simp [dupReviewData])).1

/-- Modelled from the spec, section 4.3 (all joins are inner joins): the
variant of the items-products merge claim C3 asserts, an inner join. -/
def order_items_inner (items : List ItemRow) (products : List ProductRow) :
    List OrderItemRow :=
  items.flatMap (fun it =>
    (products.filter (fun p => p.product_id = it.product_id)).map
      (fun p => ⟨it.order_id, it.product_id, it.price, p.category⟩))

/-- Modelled from the spec: the pipeline with the items-products join made
inner, as claim C3 asserts of the code. -/
def build_cust_master_inner (d : RawData) : List CustRow :=
  cust_master (merge_summary
    (merge_reviews (merge_customers d.orders d.customers) d.reviews)
    (order_summary (order_items_inner d.items d.products)))

/-- A dataset where the first order of the only customer contains a single
item whose product_id resolves to no product row. -/
def unresolvedProductData : RawData :=
  ⟨[⟨"o1", "c1", none, 5⟩, ⟨"o2", "c1", none, 5⟩],
   [⟨"o1", "pX", 10⟩, ⟨"o2", "p1", 5⟩],
   [⟨"o1", 5⟩, ⟨"o2", 4⟩],
   [⟨"c1", "u1", "SP"⟩],
   [⟨"p1", some "toys"⟩]⟩

/-- Counterexample to C3: the items-products merge of line 65 is a LEFT
join, not an inner join.  With an order whose only item has an
unresolvable product category the code keeps the customer with that
order counted (Monetary 15, Frequency 2); had all four joins been inner,
as the claim states, the order would be dropped (Monetary 5,
Frequency 1). -/
theorem joins_not_all_inner_cex :
    (build_cust_master unresolvedProductData).map
      (fun r => (r.customer_unique_id, r.Monetary, r.Frequency))
      = [("u1", 15, 2)]
  ∧ (build_cust_master_inner unresolvedProductData).map
      (fun r => (r.customer_unique_id, r.Monetary, r.Frequency))
      = [("u1", 5, 1)] := by
  constructor <;>
    (simp [unresolvedProductData, build_cust_master,
      build_cust_master_inner, cust_master, build_df, merge_summary,
      merge_reviews, merge_customers, order_summary, order_items,
      order_items_inner, item_product_rows, order_delay, meanQ, meanOptD,
      value_counts_top, firstCategory, List.dedup, List.pwFilter,
      List.filterMap, List.count, List.countP, List.foldl]
     try norm_num)

/-- Helper: a customer key occurs in the aggregate exactly when it occurs
in the merged order-level table. -/
lemma exists_cust_master_key (df : List DfRow) (u : String) :
    (∃ row ∈ cust_master df, row.customer_unique_id = u)
      ↔ ∃ r ∈ df, r.customer_unique_id = u := by
  unfold cust_master
  constructor
  · rintro ⟨row, hrow, hu⟩
    rw [List.mem_map] at hrow
    obtain ⟨k, hk, hrk⟩ := hrow
    rw [List.mem_dedup, List.mem_map] at hk
    obtain ⟨r, hr, hrk2⟩ := hk
    refine ⟨r, hr, ?_⟩
    rw [hrk2]
    rw [← hrk] at hu
    simpa using hu
  · rintro ⟨r, hr, hru⟩
    refine ⟨_, List.mem_map.mpr ⟨u, ?_, rfl⟩, rfl⟩
    rw [List.mem_dedup, List.mem_map]
    exact ⟨r, hr, hru⟩

/-- Helper: an order has a summary row exactly when it has a row in the
items-products merge. -/
lemma exists_summary_row_iff (oi : List OrderItemRow) (k : String) :
    (∃ s ∈ order_summary oi, s.order_id = k)
      ↔ ∃ r ∈ oi, r.order_id = k := by
  unfold order_summary
  constructor
  · rintro ⟨s, hs, hsk⟩
    rw [List.mem_map] at hs
    obtain ⟨k2, hk2, hsk2⟩ := hs
    rw [List.mem_dedup, List.mem_map] at hk2
    obtain ⟨r, hr, hrk2⟩ := hk2
    refine ⟨r, hr, ?_⟩
    rw [hrk2]
    rw [← hsk2] at hsk
    simpa using hsk
  · rintro ⟨r, hr, hrk⟩
    refine ⟨_, List.mem_map.mpr ⟨k, ?_, rfl⟩, rfl⟩
    rw [List.mem_dedup, List.mem_map]
    exact ⟨r, hr, hrk⟩

/-- Helper: an order has a row in the items-products LEFT merge exactly
when it has an item, with no condition on the products table. -/
lemma exists_order_items_iff (items : List ItemRow)
    (products : List ProductRow) (k : String) :
    (∃ r ∈ order_items items products, r.order_id = k)
      ↔ ∃ it ∈ items, it.order_id = k := by
  unfold order_items
  constructor
  · rintro ⟨r, hr, hrk⟩
    rw [List.mem_flatMap] at hr
    obtain ⟨it, hit, hr⟩ := hr
    refine ⟨it, hit, ?_⟩
    rw [← (item_product_rows_fields products it r hr).1]
    exact hrk
  · rintro ⟨it, hit, hitk⟩
    obtain ⟨r0, hr0⟩ := List.exists_mem_of_ne_nil _
      (item_product_rows_ne_nil products it)
    refine ⟨r0, List.mem_flatMap.mpr ⟨it, hit, hr0⟩, ?_⟩
    rw [(item_product_rows_fields products it r0 hr0).1, hitk]

/-- C3 amended: a customer appears in the aggregate exactly when they have
an order with a matching customer row, at least one review and at least
one item; the orders-customers, reviews and summary joins are inner and
drop customers missing any of these, but the items-products join is a
LEFT join, so no product or category condition appears: a customer whose
items lack a resolvable product category is NOT dropped (when every
per-order category of a customer is null, Primary_Category aggregation
raises instead, failing the whole load, lines 112 to 116). -/
theorem aggregate_membership_iff (d : RawData) (u : String) :
    (∃ row ∈ build_cust_master d, row.customer_unique_id = u)
      ↔ ∃ o ∈ d.orders, ∃ c ∈ d.customers, ∃ v ∈ d.reviews,
          ∃ it ∈ d.items,
          c.customer_id = o.customer_id ∧ c.customer_unique_id = u ∧
          v.order_id = o.order_id ∧ it.order_id = o.order_id := by
  unfold build_cust_master
  rw [exists_cust_master_key]
  constructor
  · rintro ⟨r, hr, hru⟩
    unfold build_df at hr
    rw [mem_merge_summary] at hr
    obtain ⟨r2, hr2, s2, hs2, hs2id, hreq⟩ := hr
    rw [mem_merge_reviews] at hr2
    obtain ⟨r1, hr1, v, hv, hvid, hr2eq⟩ := hr2
    rw [mem_merge_customers] at hr1
    obtain ⟨o, ho, c, hc, hcid, hr1eq⟩ := hr1
    subst hreq
    subst hr2eq
    subst hr1eq
    simp only at hru hvid hs2id
    have hsum : ∃ s ∈ order_summary (order_items d.items d.products),
        s.order_id = o.order_id := ⟨s2, hs2, hs2id⟩
    rw [exists_summary_row_iff, exists_order_items_iff] at hsum
    obtain ⟨it, hit, hitid⟩ := hsum
    exact ⟨o, ho, c, hc, v, hv, it, hit, hcid, hru, hvid, hitid⟩
  · rintro ⟨o, ho, c, hc, v, hv, it, hit, hcid, hcu, hvid, hitid⟩
    have hsum : ∃ s ∈ order_summary (order_items d.items d.products),
        s.order_id = o.order_id := by
      rw [exists_summary_row_iff, exists_order_items_iff]
      exact ⟨it, hit, hitid⟩
    obtain ⟨s, hs, hsid⟩ := hsum
    refine ⟨⟨o.order_id, c.customer_unique_id, c.customer_state,
      order_delay o, v.review_score, s.price, s.category⟩, ?_, hcu⟩
    unfold build_df
    rw [mem_merge_summary]
    refine ⟨⟨o.order_id, c.customer_unique_id, c.customer_state,
      order_delay o, v.review_score⟩, ?_, s, hs, hsid, rfl⟩
    rw [mem_merge_reviews]
    refine ⟨⟨o.order_id, c.customer_unique_id, c.customer_state,
      order_delay o⟩, ?_, v, hv, hvid, rfl⟩
    rw [mem_merge_customers]
    exact ⟨o, ho, c, hc, hcid, rfl⟩

/-- The per-order representative category the code actually aggregates:
the category of the FIRST item row of the order, resolved through the
first matching product row (none when the product is missing; the Unknown
branch mirrors the unreachable empty-group case of line 68). -/
def first_item_category (items : List ItemRow) (products : List ProductRow)
    (k : String) : Option String :=
  match items.filter (fun it => it.order_id = k) with
  | [] => some "Unknown"
  | it :: _ =>
    match products.filter (fun p => p.product_id = it.product_id) with
    | [] => none
    | p :: _ => p.category

/-- Helper: the head category of the group of an order in the
items-products merge is the first-item category of that order. -/
lemma first_category_filter_order_items (items : List ItemRow)
    (products : List ProductRow) (k : String) :
    firstCategory ((order_items items products).filter
        (fun r => r.order_id = k))
      = first_item_category items products k := by
  unfold order_items first_item_category
  induction items with
  | nil => simp [firstCategory]
  | cons it rest ih =>
    rw [List.flatMap_cons, List.filter_append]
    by_cases hit : it.order_id = k
    · have hkeep : (item_product_rows products it).filter
          (fun r => r.order_id = k) = item_product_rows products it := by
        apply List.filter_eq_self.mpr
        intro r hr
        simp [(item_product_rows_fields products it r hr).1, hit]
      rw [hkeep, List.filter_cons_of_pos (by simp [hit])]
      cases hps : products.filter (fun p => p.product_id = it.product_id)
        with
      | nil => simp [item_product_rows, hps, firstCategory]
      | cons p ptail => simp [item_product_rows, hps, firstCategory]
    · have hdrop : (item_product_rows products it).filter
          (fun r => r.order_id = k) = [] := by
        apply List.filter_eq_nil_iff.mpr
        intro r hr
        simp [(item_product_rows_fields products it r hr).1, hit]
      rw [hdrop, List.nil_append,
        List.filter_cons_of_neg (by simp [hit])]
      exact ih

/-- Helper: every order summary row carries the first-item category of its
order, not a mode over the items of the order. -/
lemma order_summary_category (items : List ItemRow)
    (products : List ProductRow) :
    ∀ s ∈ order_summary (order_items items products),
      s.category = first_item_category items products s.order_id := by
  intro s hs
  unfold order_summary at hs
  rw [List.mem_map] at hs
  obtain ⟨k, _, hsk⟩ := hs
  subst hsk
  exact first_category_filter_order_items items products k

/-- C4 amended: Primary_Category is the most frequent value (nulls
dropped, first-encountered tie-break) over the PER-ORDER representative
categories of the customer, each being the category of the first item
row of the order, counted once per merged (order x review) row; items
beyond the first of each order never influence it. -/
theorem primary_category_first_item_mode (d : RawData) :
    (∀ s ∈ order_summary (order_items d.items d.products),
      s.category = first_item_category d.items d.products s.order_id)
  ∧ (∀ row ∈ build_cust_master d,
      row.Primary_Category = value_counts_top
        (((build_df d).filter
            (fun r => r.customer_unique_id = row.customer_unique_id)).map
          (fun r => first_item_category d.items d.products r.order_id))) := by
  refine ⟨order_summary_category d.items d.products, ?_⟩
  intro row hrow
  unfold build_cust_master cust_master at hrow
  rw [List.mem_map] at hrow
  obtain ⟨u, _, hru⟩ := hrow
  subst hru
  show value_counts_top
      (((build_df d).filter (fun r => r.customer_unique_id = u)).map
        (fun r => r.category)) = _
  congr 1
  apply List.map_congr_left
  intro r hr
  have hrdf : r ∈ build_df d := List.mem_of_mem_filter hr
  unfold build_df at hrdf
  rw [mem_merge_summary] at hrdf
  obtain ⟨r2, _, s2, hs2, hs2id, hreq⟩ := hrdf
  subst hreq
  simp only
  rw [order_summary_category d.items d.products s2 hs2, hs2id]

/-- Witness for C4 amended, on the one-customer sample dataset. -/
theorem primary_category_first_item_mode_witness :
    (⟨"u1", 4, 10, 1, none, some "toys"⟩ : CustRow).Primary_Category
      = value_counts_top
        (((build_df sampleData).filter
            (fun r => r.customer_unique_id =
              (⟨"u1", 4, 10, 1, none,
                some "toys"⟩ : CustRow).customer_unique_id)).map
          (fun r => first_item_category sampleData.items
            sampleData.products r.order_id)) :=
  (primary_category_first_item_mode sampleData).2
    ⟨"u1", 4, 10, 1, none, some "toys"⟩
    (by rw [sampleData_master]; exact List.mem_singleton.mpr rfl)

/-- Modelled from the spec, section 3 (Primary_Category: mode of purchased
categories): the categories of ALL items purchased by the customer with
the given unique id, each resolved through the products table. -/
def spec_all_item_categories (d : RawData) (u : String) :
    List (Option String) :=
  d.orders.flatMap (fun o =>
    if (d.customers.filter (fun c =>
        c.customer_id = o.customer_id ∧
        c.customer_unique_id = u)).isEmpty
    then []
    else (d.items.filter (fun it => it.order_id = o.order_id)).map
      (fun it => ((d.products.filter
          (fun p => p.product_id = it.product_id)).head?).bind
        (fun p => p.category)))

/-- Modelled from the spec: the mode (first-encountered tie-break) of the
categories of all items the customer purchased. -/
def spec_mode_all_items (d : RawData) (u : String) : Option String :=
  value_counts_top (spec_all_item_categories d u)

/-- A one-order dataset whose order holds three items: the first of
category A, then two of category B. -/
def multiItemData : RawData :=
  ⟨[⟨"o1", "c1", none, 5⟩],
   [⟨"o1", "pA", 10⟩, ⟨"o1", "pB", 1⟩, ⟨"o1", "pB", 1⟩],
   [⟨"o1", 5⟩],
   [⟨"c1", "u1", "SP"⟩],
   [⟨"pA", some "A"⟩, ⟨"pB", some "B"⟩]⟩

/-- Counterexample to C4: Primary_Category is NOT the mode of the
categories of all items the customer purchased: with one order holding
items of categories A, B, B, the mode over all items is B, but the code
keeps only the first item of the order and yields A. -/
theorem primary_category_cex :
    (build_cust_master multiItemData).map (fun r => r.Primary_Category)
      = [some "A"]
  ∧ spec_mode_all_items multiItemData "u1" = some "B"
  ∧ (some "A" : Option String) ≠ some "B" := by
  refine ⟨?_, ?_, by simp⟩ <;>
    (simp [multiItemData, build_cust_master, cust_master, build_df,
      merge_summary, merge_reviews, merge_customers, order_summary,
      order_items, item_product_rows, order_delay, meanQ, meanOptD,
      value_counts_top, firstCategory, spec_mode_all_items,
      spec_all_item_categories, List.dedup, List.pwFilter, List.filterMap,
      List.count, List.countP, List.foldl]
     try norm_num
     try decide)
